import Mathlib

/-!
Verification development for the fjl/discv5-streams repository.

The Go source is shallowly embedded: machine integers are `Nat` with explicit
`% 2^w` at the points where overflow matters, byte strings are `List Nat`,
fixed-size byte arrays are quantified as `Mathlib.Vector (Fin 256) n` in
theorem statements, and stateful code is modelled by explicit state passing.
-/

/-- ASCII bytes of a string (Go `[]byte(s)` for ASCII content). -/
def String.ascii (s : String) : List Nat :=
  s.toList.map Char.toNat

namespace DiscStreams

/-! ## Byte-order helpers (Go `encoding/binary` big-endian) -/

/-- Big-endian bytes of `x`, `w` bytes wide (`binary.BigEndian.PutUintN`). -/
def beBytes : Nat → Nat → List Nat
  | 0, _ => []
  | w + 1, x => x / 256 ^ w % 256 :: beBytes w x

/-- Big-endian value of a byte list (`binary.BigEndian.UintN`). -/
def beVal : List Nat → Nat
  | [] => 0
  | b :: bs => b * 256 ^ bs.length + beVal bs

theorem beBytes_length (w x : Nat) : (beBytes w x).length = w := by
  induction w generalizing x with
  | zero => rfl
  | succ w ih => simp [beBytes, ih]

/-! ## SHA-256 (FIPS 180-4, as used by Go `crypto/sha256`) -/

/-- 32-bit right rotation. -/
def rotr32 (n x : Nat) : Nat :=
  (x / 2 ^ n + x * 2 ^ (32 - n)) % 2 ^ 32

/-- SHA-256 round constants. -/
def sha256K : List Nat :=
  [1116352408, 1899447441, 3049323471, 3921009573, 961987163, 1508970993,
   2453635748, 2870763221, 3624381080, 310598401, 607225278, 1426881987,
   1925078388, 2162078206, 2614888103, 3248222580, 3835390401, 4022224774,
   264347078, 604807628, 770255983, 1249150122, 1555081692, 1996064986,
   2554220882, 2821834349, 2952996808, 3210313671, 3336571891, 3584528711,
   113926993, 338241895, 666307205, 773529912, 1294757372, 1396182291,
   1695183700, 1986661051, 2177026350, 2456956037, 2730485921, 2820302411,
   3259730800, 3345764771, 3516065817, 3600352804, 4094571909, 275423344,
   430227734, 506948616, 659060556, 883997877, 958139571, 1322822218,
   1537002063, 1747873779, 1955562222, 2024104815, 2227730452, 2361852424,
   2428436474, 2756734187, 3204031479, 3329325298]

/-- SHA-256 initial hash state. -/
def sha256H0 : List Nat :=
  [1779033703, 3144134277, 1013904242, 2773480762,
   1359893119, 2600822924, 528734635, 1541459225]

/-- SHA-256 message padding: append 0x80, zero bytes, and the 64-bit
big-endian bit length, to a multiple of 64 bytes. -/
def sha256Pad (msg : List Nat) : List Nat :=
  msg ++ 0x80 :: List.replicate ((64 - (msg.length + 9) % 64) % 64) 0
      ++ beBytes 8 (8 * msg.length)

/-- The 64-entry message schedule of one 64-byte chunk. -/
def sha256Schedule (chunk : List Nat) : List Nat :=
  let w16 := (List.range 16).map fun i => beVal ((chunk.drop (4 * i)).take 4)
  (List.range 48).foldl
    (fun w _ =>
      let n := w.length
      let x15 := w.getD (n - 15) 0
      let x2 := w.getD (n - 2) 0
      let s0 := (rotr32 7 x15).xor ((rotr32 18 x15).xor (x15 / 2 ^ 3))
      let s1 := (rotr32 17 x2).xor ((rotr32 19 x2).xor (x2 / 2 ^ 10))
      w ++ [(w.getD (n - 16) 0 + s0 + w.getD (n - 7) 0 + s1) % 2 ^ 32])
    w16

/-- SHA-256 compression of one chunk into the running state. -/
def sha256Compress (hs chunk : List Nat) : List Nat :=
  let w := sha256Schedule chunk
  let final := (List.range 64).foldl
    (fun v i =>
      match v with
      | (a, b, c, d, e, f, g, h) =>
        let s1 := (rotr32 6 e).xor ((rotr32 11 e).xor (rotr32 25 e))
        let ch := (e.land f).xor ((e.xor (2 ^ 32 - 1)).land g)
        let t1 := (h + s1 + ch + sha256K.getD i 0 + w.getD i 0) % 2 ^ 32
        let s0 := (rotr32 2 a).xor ((rotr32 13 a).xor (rotr32 22 a))
        let mj := (a.land b).xor ((a.land c).xor (b.land c))
        let t2 := (s0 + mj) % 2 ^ 32
        ((t1 + t2) % 2 ^ 32, a, b, c, (d + t1) % 2 ^ 32, e, f, g))
    (hs.getD 0 0, hs.getD 1 0, hs.getD 2 0, hs.getD 3 0,
     hs.getD 4 0, hs.getD 5 0, hs.getD 6 0, hs.getD 7 0)
  match final with
  | (a, b, c, d, e, f, g, h) =>
    [(hs.getD 0 0 + a) % 2 ^ 32, (hs.getD 1 0 + b) % 2 ^ 32,
     (hs.getD 2 0 + c) % 2 ^ 32, (hs.getD 3 0 + d) % 2 ^ 32,
     (hs.getD 4 0 + e) % 2 ^ 32, (hs.getD 5 0 + f) % 2 ^ 32,
     (hs.getD 6 0 + g) % 2 ^ 32, (hs.getD 7 0 + h) % 2 ^ 32]

/-- SHA-256 digest (32 bytes) of a byte list. -/
def sha256 (msg : List Nat) : List Nat :=
  let padded := sha256Pad msg
  let hs := (List.range (padded.length / 64)).foldl
    (fun hs i => sha256Compress hs ((padded.drop (64 * i)).take 64)) sha256H0
  hs.flatMap (beBytes 4)

/-! ## HMAC-SHA256 and HKDF (Go `crypto/hmac`, `golang.org/x/crypto/hkdf`) -/

/-- HMAC-SHA256 (RFC 2104, block size 64). -/
def hmacSha256 (key msg : List Nat) : List Nat :=
  let k := if key.length > 64 then sha256 key else key
  let k0 := k ++ List.replicate (64 - k.length) 0
  let ipad := k0.map (Nat.xor 0x36)
  let opad := k0.map (Nat.xor 0x5c)
  sha256 (opad ++ sha256 (ipad ++ msg))

/-- The first 48 bytes of the HKDF-SHA256 output stream with zero-filled salt
(`hkdf.New(sha256.New, ikm, nil, info)` followed by reading 48 bytes;
the nil salt becomes 32 zero bytes per RFC 5869). -/
def hkdfSha256of48 (ikm info : List Nat) : List Nat :=
  let prk := hmacSha256 (List.replicate 32 0) ikm
  let t1 := hmacSha256 prk (info ++ [1])
  let t2 := hmacSha256 prk (t1 ++ info ++ [2])
  (t1 ++ t2).take 48

/-! ## AES-128 (FIPS 197, as used by Go `crypto/aes`) -/

/-- The AES S-box. -/
def sboxTab : List Nat :=
  [0x63, 0x7c, 0x77, 0x7b, 0xf2, 0x6b, 0x6f, 0xc5, 0x30, 0x01, 0x67, 0x2b, 0xfe, 0xd7, 0xab, 0x76,
   0xca, 0x82, 0xc9, 0x7d, 0xfa, 0x59, 0x47, 0xf0, 0xad, 0xd4, 0xa2, 0xaf, 0x9c, 0xa4, 0x72, 0xc0,
   0xb7, 0xfd, 0x93, 0x26, 0x36, 0x3f, 0xf7, 0xcc, 0x34, 0xa5, 0xe5, 0xf1, 0x71, 0xd8, 0x31, 0x15,
   0x04, 0xc7, 0x23, 0xc3, 0x18, 0x96, 0x05, 0x9a, 0x07, 0x12, 0x80, 0xe2, 0xeb, 0x27, 0xb2, 0x75,
   0x09, 0x83, 0x2c, 0x1a, 0x1b, 0x6e, 0x5a, 0xa0, 0x52, 0x3b, 0xd6, 0xb3, 0x29, 0xe3, 0x2f, 0x84,
   0x53, 0xd1, 0x00, 0xed, 0x20, 0xfc, 0xb1, 0x5b, 0x6a, 0xcb, 0xbe, 0x39, 0x4a, 0x4c, 0x58, 0xcf,
   0xd0, 0xef, 0xaa, 0xfb, 0x43, 0x4d, 0x33, 0x85, 0x45, 0xf9, 0x02, 0x7f, 0x50, 0x3c, 0x9f, 0xa8,
   0x51, 0xa3, 0x40, 0x8f, 0x92, 0x9d, 0x38, 0xf5, 0xbc, 0xb6, 0xda, 0x21, 0x10, 0xff, 0xf3, 0xd2,
   0xcd, 0x0c, 0x13, 0xec, 0x5f, 0x97, 0x44, 0x17, 0xc4, 0xa7, 0x7e, 0x3d, 0x64, 0x5d, 0x19, 0x73,
   0x60, 0x81, 0x4f, 0xdc, 0x22, 0x2a, 0x90, 0x88, 0x46, 0xee, 0xb8, 0x14, 0xde, 0x5e, 0x0b, 0xdb,
   0xe0, 0x32, 0x3a, 0x0a, 0x49, 0x06, 0x24, 0x5c, 0xc2, 0xd3, 0xac, 0x62, 0x91, 0x95, 0xe4, 0x79,
   0xe7, 0xc8, 0x37, 0x6d, 0x8d, 0xd5, 0x4e, 0xa9, 0x6c, 0x56, 0xf4, 0xea, 0x65, 0x7a, 0xae, 0x08,
   0xba, 0x78, 0x25, 0x2e, 0x1c, 0xa6, 0xb4, 0xc6, 0xe8, 0xdd, 0x74, 0x1f, 0x4b, 0xbd, 0x8b, 0x8a,
   0x70, 0x3e, 0xb5, 0x66, 0x48, 0x03, 0xf6, 0x0e, 0x61, 0x35, 0x57, 0xb9, 0x86, 0xc1, 0x1d, 0x9e,
   0xe1, 0xf8, 0x98, 0x11, 0x69, 0xd9, 0x8e, 0x94, 0x9b, 0x1e, 0x87, 0xe9, 0xce, 0x55, 0x28, 0xdf,
   0x8c, 0xa1, 0x89, 0x0d, 0xbf, 0xe6, 0x42, 0x68, 0x41, 0x99, 0x2d, 0x0f, 0xb0, 0x54, 0xbb, 0x16]

/-- S-box substitution of one byte. -/
def sbox (b : Nat) : Nat :=
  sboxTab.getD b 0

/-- Multiplication by x in GF(2^8) modulo the AES polynomial. -/
def xtime (b : Nat) : Nat :=
  ((2 * b).xor (if b ≥ 128 then 0x1b else 0)) % 256

/-- Multiplication by 3 in GF(2^8). -/
def gf3 (b : Nat) : Nat :=
  (xtime b).xor b

/-- AES round constants for key expansion (index 1 to 10). -/
def rconTab : List Nat :=
  [0, 0x01, 0x02, 0x04, 0x08, 0x10, 0x20, 0x40, 0x80, 0x1b, 0x36]

/-- AES-128 key expansion: the 44 four-byte words of the key schedule. -/
def aesExpandWords (key : List Nat) : List (List Nat) :=
  let w0 := (List.range 4).map fun i => (key.drop (4 * i)).take 4
  (List.range 40).foldl
    (fun ws j =>
      let n := ws.length
      let prev := ws.getD (n - 1) []
      let temp :=
        if (j + 4) % 4 == 0 then
          List.zipWith Nat.xor ((prev.drop 1 ++ prev.take 1).map sbox)
            [rconTab.getD ((j + 4) / 4) 0, 0, 0, 0]
        else prev
      ws ++ [List.zipWith Nat.xor (ws.getD (n - 4) []) temp])
    w0

/-- Round key `r` (16 bytes) of the AES-128 key schedule. -/
def aesRoundKey (key : List Nat) (r : Nat) : List Nat :=
  (((aesExpandWords key).drop (4 * r)).take 4).flatten

/-- ShiftRows on the flat 16-byte state (bytes in FIPS column-major order). -/
def shiftRows (bs : List Nat) : List Nat :=
  ([0, 5, 10, 15, 4, 9, 14, 3, 8, 13, 2, 7, 12, 1, 6, 11] : List Nat).map
    fun i => bs.getD i 0

/-- MixColumns on the flat 16-byte state. -/
def mixColumns (bs : List Nat) : List Nat :=
  (List.range 16).map fun i =>
    let c := i / 4
    let a0 := bs.getD (4 * c) 0
    let a1 := bs.getD (4 * c + 1) 0
    let a2 := bs.getD (4 * c + 2) 0
    let a3 := bs.getD (4 * c + 3) 0
    match i % 4 with
    | 0 => ((xtime a0).xor (gf3 a1)).xor (a2.xor a3)
    | 1 => (a0.xor (xtime a1)).xor ((gf3 a2).xor a3)
    | 2 => (a0.xor a1).xor ((xtime a2).xor (gf3 a3))
    | _ => ((gf3 a0).xor a1).xor (a2.xor (xtime a3))

/-- AES-128 block encryption of a 16-byte block. -/
def aes128Block (key block : List Nat) : List Nat :=
  let s0 := List.zipWith Nat.xor block (aesRoundKey key 0)
  let s9 := (List.range 9).foldl
    (fun s r =>
      List.zipWith Nat.xor (mixColumns (shiftRows (s.map sbox))) (aesRoundKey key (r + 1)))
    s0
  List.zipWith Nat.xor (shiftRows (s9.map sbox)) (aesRoundKey key 10)

/-! ## AES-GCM (Go `crypto/cipher.NewGCMWithNonceSize` with 12-byte nonces,
NIST SP 800-38D) -/

/-- Multiplication in GF(2^128) with the GCM bit convention (blocks as
big-endian 128-bit naturals, reduction polynomial `0xe1 << 120`). -/
def gcmMul (x y : Nat) : Nat :=
  Prod.fst <| (List.range 128).foldl
    (fun zv i =>
      let z := zv.1
      let v := zv.2
      (if (y % 2 ^ 128).testBit (127 - i) then z.xor v else z,
       if v.testBit 0 then (v / 2).xor (0xe1 * 2 ^ 120) else v / 2))
    (0, x % 2 ^ 128)

/-- GHASH over a list of 128-bit blocks with hash subkey `h`. -/
def ghash (h : Nat) (blocks : List Nat) : Nat :=
  blocks.foldl (fun y b => gcmMul (y.xor b) h) 0

/-- Split a byte list into 128-bit blocks, zero-padding the last to 16 bytes. -/
def gcmBlocks (bs : List Nat) : List Nat :=
  let padded := bs ++ List.replicate ((16 - bs.length % 16) % 16) 0
  (List.range (padded.length / 16)).map fun i => beVal ((padded.drop (16 * i)).take 16)

/-- The GCM counter block: nonce (12 bytes) followed by the 32-bit counter. -/
def gcmCounterBlock (nonce : List Nat) (ctr : Nat) : List Nat :=
  nonce ++ beBytes 4 (ctr % 2 ^ 32)

/-- The `n`-byte CTR keystream. Byte `i` is byte `i % 16` of the encryption of
counter block `2 + i / 16` (GCM encryption starts at counter value 2). -/
def gcmKeystream (key nonce : List Nat) (n : Nat) : List Nat :=
  (List.range n).map fun i =>
    (aes128Block key (gcmCounterBlock nonce (2 + i / 16))).getD (i % 16) 0

/-- CTR encryption/decryption: xor the data with the keystream. -/
def ctrCrypt (key nonce data : List Nat) : List Nat :=
  List.zipWith Nat.xor data (gcmKeystream key nonce data.length)

/-- The GCM authentication tag (as a 128-bit natural) over ciphertext `ct`
and associated data `ad`. -/
def gcmTagVal (key nonce ct ad : List Nat) : Nat :=
  let h := beVal (aes128Block key (List.replicate 16 0))
  let s := ghash h
    (gcmBlocks ad ++ gcmBlocks ct ++ [beVal (beBytes 8 (8 * ad.length) ++ beBytes 8 (8 * ct.length))])
  s.xor (beVal (aes128Block key (gcmCounterBlock nonce 1)))

/-- AES-128-GCM Seal: ciphertext followed by the 16-byte tag
(Go `gcm.Seal(dest, nonce, plaintext, ad)` with an empty `dest`). -/
def gcmSeal (key nonce pt ad : List Nat) : List Nat :=
  let ct := ctrCrypt key nonce pt
  ct ++ beBytes 16 (gcmTagVal key nonce ct ad)

/-- AES-128-GCM Open: checks the tag and decrypts
(Go `gcm.Open(dest, nonce, ciphertext, ad)` with an empty `dest`). -/
def gcmOpen (key nonce data ad : List Nat) : Option (List Nat) :=
  if data.length < 16 then none
  else
    let ct := data.take (data.length - 16)
    let tag := data.drop (data.length - 16)
    if tag = beBytes 16 (gcmTagVal key nonce ct ad) then some (ctrCrypt key nonce ct)
    else none

/-! ## utpconn sequence-number comparison

From `src/unnamed/part_000` (package utpconn):

    func seqLess(a, b uint16) bool {
        if b < 0x8000 {
            return a < b || a >= b-0x8000
        } else {
            return a < b && a >= b-0x8000
        }
    }

`b - 0x8000` is computed in `uint16`, i.e. modulo 65536. -/

/-- Go `uint16` subtraction `a - b` (wraps modulo 65536). -/
def u16sub (a b : Nat) : Nat :=
  (a + 65536 - b % 65536) % 65536

/-- Embedding of `seqLess` from `src/unnamed/part_000`. -/
def seqLess (a b : Nat) : Bool :=
  if b < 0x8000 then
    decide (a < b) || decide (a ≥ u16sub b 0x8000)
  else
    decide (a < b) && decide (a ≥ u16sub b 0x8000)

/-! ## Session (src/session/session.go)

A `Session` holds the per-pair AEAD context. Addresses are abstract (`Nat`);
only equality of addresses matters to the embedded code. Byte strings are
`List Nat`; the Go types `[16]byte`/`[8]byte` are 16/8-element lists at the
call sites (the claims quantify over `Mathlib.Vector (Fin 256) n`). -/

structure Session where
  ip : Nat
  ingressID : Nat
  ingressKey : List Nat
  egressID : Nat
  egressKey : List Nat
  nonceCounter : Nat
  deriving DecidableEq, Repr

/-- The HKDF info string built by `derive`:
`"discv5 subprotocol session" + protocol`. -/
def deriveInfo (protocol : List Nat) : List Nat :=
  "discv5 subprotocol session".ascii ++ protocol

/-- The 48 bytes of key material produced inside `derive`. -/
def deriveKdata (protocol isec rsec : List Nat) : List Nat :=
  hkdfSha256of48 (isec ++ rsec) (deriveInfo protocol)

/-- Embedding of `Session.derive` (src/session/session.go lines 133-157)
combined with session construction: key material is split into
ingress/egress keys and ids, and the recipient swaps the two halves. -/
def deriveSession (ip : Nat) (protocol isec rsec : List Nat) (isRecipient : Bool) : Session :=
  let kdata := deriveKdata protocol isec rsec
  let key1 := kdata.take 16
  let key2 := (kdata.drop 16).take 16
  let id1 := beVal ((kdata.drop 32).take 8)
  let id2 := beVal ((kdata.drop 40).take 8)
  if isRecipient then
    { ip := ip, ingressKey := key2, egressKey := key1,
      ingressID := id2, egressID := id1, nonceCounter := 0 }
  else
    { ip := ip, ingressKey := key1, egressKey := key2,
      ingressID := id1, egressID := id2, nonceCounter := 0 }

/-- Embedding of `Session.Encode` (src/session/session.go lines 161-177) on
the success path. The 8 random nonce bytes read from `crypto/rand` are the
`rand8` parameter; `dest` is empty at both call sites in the repository.
Returns the updated session and the packet. -/
def sessionEncode (s : Session) (rand8 msg : List Nat) : Session × List Nat :=
  let nonceValue := s.nonceCounter
  let s2 := { s with nonceCounter := (s.nonceCounter + 1) % 2 ^ 32 }
  let nonceData := beBytes 4 (nonceValue % 2 ^ 32) ++ rand8
  let idData := beBytes 8 s.egressID
  (s2, idData ++ nonceData ++ gcmSeal s.egressKey nonceData msg idData)

/-- Embedding of `Session.Decode` (src/session/session.go lines 181-189):
packets shorter than 36 bytes are rejected, bytes 0-8 are the associated
data, bytes 8-20 the nonce, the rest the GCM ciphertext. -/
def sessionDecode (s : Session) (packet : List Nat) : Option (List Nat) :=
  if packet.length < 36 then none
  else gcmOpen s.ingressKey ((packet.drop 8).take 12) (packet.drop 20) (packet.take 8)

/-! ## Session store (src/session/store.go)

The store keeps `map[sessionKey]*Session` plus an expiry priority queue
`prque.Prque[mclock.AbsTime, *Session]`. go-ethereum's `common/prque` is a
max-priority queue: `Peek`/`Pop` return the entry with the GREATEST
priority (callers wanting smallest-first push negated priorities; this
store pushes absolute expiry times directly). The queue is modelled as a
list of entries; `heapIndex`-based removal is modelled by removal of the
session's unique entry (each live session object has at most one entry).
Sessions are identified by a `ref` standing for Go pointer identity;
`storePut` draws fresh refs from a counter. Times are in nanoseconds
(`mclock.AbsTime`). -/

/-- Go `time.Second` in nanoseconds. -/
def second : Nat := 1000000000

/-- `sessionTimeout` from src/session/store.go. -/
def sessionTimeout : Nat := 10 * second

structure StoredSession where
  ref : Nat
  ip : Nat
  ingressID : Nat
  deriving DecidableEq, Repr

structure StoreState where
  sessions : List ((Nat × Nat) × StoredSession)
  exp : List (StoredSession × Nat)
  nextRef : Nat
  deriving DecidableEq, Repr

/-- Go map lookup `st.sessions[key]`. -/
def lookupKey (m : List ((Nat × Nat) × StoredSession)) (k : Nat × Nat) : Option StoredSession :=
  (m.find? fun e => decide (e.1 = k)).map (·.2)

/-- Go map assignment `st.sessions[key] = s` (replaces any previous value). -/
def insertKey (m : List ((Nat × Nat) × StoredSession)) (k : Nat × Nat) (v : StoredSession) :
    List ((Nat × Nat) × StoredSession) :=
  (m.filter fun e => !decide (e.1 = k)) ++ [(k, v)]

/-- Go `delete(st.sessions, key)`. -/
def eraseKey (m : List ((Nat × Nat) × StoredSession)) (k : Nat × Nat) :
    List ((Nat × Nat) × StoredSession) :=
  m.filter fun e => !decide (e.1 = k)

/-- `Prque.Peek` of go-ethereum: the entry with the greatest priority
(the first such entry on ties; tie order does not affect the results
proved below). -/
def peekMax (q : List (StoredSession × Nat)) : Option (StoredSession × Nat) :=
  q.foldl
    (fun best e =>
      match best with
      | none => some e
      | some b => if e.2 > b.2 then some e else some b)
    none

/-- `Prque.Remove(heapIndex)`: drop the given session's queue entry. -/
def removeEntry (q : List (StoredSession × Nat)) (r : Nat) : List (StoredSession × Nat) :=
  q.filter fun e => !decide (e.1.ref = r)

/-- One fuelled unfolding of the `expire` loop (src/session/store.go lines
108-119): peek the queue top; stop if it has not expired; otherwise pop it
and delete its key from the session map. Each iteration removes one queue
entry, so `exp.length` fuel is enough. -/
def expireGo : Nat → StoreState → Nat → StoreState
  | 0, st, _ => st
  | fuel + 1, st, now =>
    match peekMax st.exp with
    | none => st
    | some (s, exptime) =>
      if exptime > now then st
      else
        expireGo fuel
          { st with
            exp := removeEntry st.exp s.ref
            sessions := eraseKey st.sessions (s.ip, s.ingressID) } now

/-- Embedding of `(*Store).expire`. -/
def storeExpire (st : StoreState) (now : Nat) : StoreState :=
  expireGo st.exp.length st now

/-- Embedding of `(*Store).store` (src/session/store.go lines 40-47) for a
freshly created session with the given key: map insert plus a queue push
with expiry `now + sessionTimeout`. -/
def storePut (st : StoreState) (ip id now : Nat) : StoreState :=
  let s : StoredSession := ⟨st.nextRef, ip, id⟩
  { sessions := insertKey st.sessions (ip, id) s
    exp := st.exp ++ [(s, now + sessionTimeout)]
    nextRef := st.nextRef + 1 }

/-- Embedding of `(*Store).get` (src/session/store.go lines 92-105):
expire, look up, and on success refresh the session's queue entry to
`now + sessionTimeout`. -/
def storeGet (st : StoreState) (ip id now : Nat) : StoreState × Option StoredSession :=
  let st1 := storeExpire st now
  match lookupKey st1.sessions (ip, id) with
  | none => (st1, none)
  | some s =>
    ({ st1 with exp := removeEntry st1.exp s.ref ++ [(s, now + sessionTimeout)] }, some s)

def emptyStore : StoreState :=
  ⟨[], [], 0⟩

/-- Run a sequence of `get` calls for one key at the given times, collecting
each call's result. -/
def runGets : StoreState → Nat → Nat → List Nat → StoreState × List (Option StoredSession)
  | st, _, _, [] => (st, [])
  | st, ip, id, t :: ts =>
    let r := storeGet st ip id t
    let rest := runGets r.1 ip id ts
    (rest.1, r.2 :: rest.2)

/-! ## Shared socket dispatch and host wiring
(src/sharedsocket/conn.go, src/unnamed/part_011)

`readLoop` walks the copy-on-write handler list in order; the first handler
whose `HandlePacket` returns true claims the packet; unclaimed packets go
to the default outlet. `host.Listen` hands the default outlet to discovery
(`discover.ListenV5(conn.DefaultConn(), ...)`) and registers the session
store with `conn.AddHandler`. -/

inductive NetComponent where
  | discovery
  | sessionStore
  deriving DecidableEq, Repr

structure HandlerList (α : Type) where
  hs : List α
  defaultConn : Option α

/-- `handlerList.append` from src/sharedsocket/conn.go. -/
def hlAppend {α : Type} (l : HandlerList α) (h : α) : HandlerList α :=
  ⟨l.hs ++ [h], l.defaultConn⟩

/-- `handlerList.setDefault` from src/sharedsocket/conn.go. -/
def hlSetDefault {α : Type} (l : HandlerList α) (dc : Option α) : HandlerList α :=
  ⟨l.hs, dc⟩

def emptyHandlerList {α : Type} : HandlerList α :=
  ⟨[], none⟩

/-- The order in which `readLoop` (src/sharedsocket/conn.go lines 178-208)
offers one datagram to components: handlers in list order until the first
acceptor (which ends the walk); if none accepts, the default outlet. -/
def offerWalk {α : Type} (accepts : α → Bool) : List α → Option α → List α
  | [], dc => dc.toList
  | h :: rest, dc => if accepts h then [h] else h :: offerWalk accepts rest dc

def offerSeq {α : Type} (l : HandlerList α) (accepts : α → Bool) : List α :=
  offerWalk accepts l.hs l.defaultConn

/-- The handler registration performed by `host.Listen`
(src/unnamed/part_011 lines 72-83): discovery gets the default outlet,
then the session store is added as a handler. -/
def hostListenHandlers : HandlerList NetComponent :=
  hlAppend (hlSetDefault emptyHandlerList (some .discovery)) .sessionStore

/-- Position of the first occurrence of `x` in a list. -/
def posOf {α : Type} [DecidableEq α] (x : α) : List α → Option Nat
  | [] => none
  | y :: ys => if y = x then some 0 else (posOf x ys).map (· + 1)

/-- `a` is offered strictly before `b` in the offer sequence `l`. -/
def offeredBefore {α : Type} [DecidableEq α] (a b : α) (l : List α) : Bool :=
  match posOf a l, posOf b l with
  | some i, some j => decide (i < j)
  | _, _ => false

/-! ## Default outlet read deadline (src/sharedsocket/conn.go lines 305-335)

`SetReadDeadline` arms `readDeadline` with `time.NewTimer(time.Now().Sub(t))`
on the FIRST call and `Reset(t.Sub(time.Now()))` on later calls. A timer
armed with duration `d` at time `now` fires at `now + d` (immediately when
`d ≤ 0`). `ReadFromUDP` with an empty queue returns a timeout error once
the armed timer has fired, else it blocks. Times are `Int` (Go durations
are signed). -/

structure DefaultConnState where
  readDeadlineFireAt : Option Int
  deriving DecidableEq, Repr

/-- Embedding of `defaultConn.SetReadDeadline`. -/
def setReadDeadline (st : DefaultConnState) (now t : Int) : DefaultConnState :=
  match st.readDeadlineFireAt with
  | none => ⟨some (now + (now - t))⟩
  | some _ => ⟨some (now + (t - now))⟩

inductive ReadOutcome where
  | timedOutErr
  | wouldBlock
  deriving DecidableEq, Repr

/-- Embedding of `defaultConn.ReadFromUDP` when no packet is queued: the
`select` can only complete via the deadline timer. -/
def readFromUDPEmpty (st : DefaultConnState) (now : Int) : ReadOutcome :=
  match st.readDeadlineFireAt with
  | some fireAt => if fireAt ≤ now then .timedOutErr else .wouldBlock
  | none => .wouldBlock

/-! ## utpconn errors, socket options and segment resend
(src/unnamed/part_001, src/utpconn/header_test.go lines 79-98, and the
utpconn options file appended in src/spec/discv5-subprotocol.md, which
holds `socketConfig` and `defaultSocketConfig`) -/

inductive UtpError where
  | errTimeout (isAck : Bool)
  | errClosed
  deriving DecidableEq, Repr

/-- `ErrTimeout.Timeout()` returns true; `net.ErrClosed` is not a timeout. -/
def timeoutMethod : UtpError → Bool
  | .errTimeout _ => true
  | .errClosed => false

/-- Embedding of `IsTimeout` (src/unnamed/part_001): `errors.As` succeeds
exactly on `ErrTimeout` values. -/
def IsTimeout : UtpError → Bool
  | .errTimeout _ => true
  | .errClosed => false

/-- Embedding of `IsAckTimeout` (src/unnamed/part_001). -/
def IsAckTimeout : UtpError → Bool
  | .errTimeout ack => ack
  | .errClosed => false

structure SendState where
  started : Nat
  acked : Bool
  numResends : Nat
  resendTimerSet : Nat
  deriving DecidableEq, Repr

/-- Go `time.Millisecond` in nanoseconds. -/
def millisecond : Nat := 1000000

/-- Go `time.Minute` in nanoseconds. -/
def minute : Nat := 60 * second

/-- `DefaultBacklogLen` from the utpconn options file appended in
src/spec/discv5-subprotocol.md. -/
def DefaultBacklogLen : Nat := 50

/-- Embedding of `socketConfig` from the utpconn options file appended in
src/spec/discv5-subprotocol.md (the duration and count fields; `bgCtx` and
the empty `connConfig` carry no data relevant here). -/
structure socketConfig where
  writeTimeout : Nat
  initialLatency : Nat
  packetReadTimeout : Nat
  backlogLen : Nat
  deriving DecidableEq, Repr

/-- Embedding of `defaultSocketConfig` from the utpconn options file
appended in src/spec/discv5-subprotocol.md: writeTimeout 15 s,
initialLatency 400 ms, packetReadTimeout 2 min, backlogLen
`DefaultBacklogLen`. -/
def defaultSocketConfig : socketConfig :=
  { writeTimeout := 15 * second
    initialLatency := 400 * millisecond
    packetReadTimeout := 2 * minute
    backlogLen := DefaultBacklogLen }

structure UtpConnState where
  destroyed : Option UtpError
  config : socketConfig
  resendTimeoutVal : Nat
  deriving DecidableEq, Repr

/-- Modelled from the spec: `Conn.destroy` is not under src/ (only its
callers are); per the spec it destroys the stream with the given error and
fails pending reads/writes. Only the recorded error matters here. -/
def connDestroy (c : UtpConnState) (e : UtpError) : UtpConnState :=
  { c with destroyed := some e }

/-- Embedding of `send.timeoutResend` (src/utpconn/header_test.go lines
83-98): on timer expiry, destroy the connection with an ack-timeout error
if the segment's first send is `config.writeTimeout` or longer ago;
otherwise, if neither acked nor destroyed, resend and rearm the timer with
the scaled backoff `rt * numResends`. `resendTimeoutVal` stands for the
value `conn.resendTimeout()` returns (rtt-derived, in code not under src/
and irrelevant to the destroy branch); the resend's network write is also
irrelevant here. -/
def timeoutResend (c : UtpConnState) (s : SendState) (now : Nat) : UtpConnState × SendState :=
  if now - s.started ≥ c.config.writeTimeout then
    (connDestroy c (.errTimeout true), s)
  else if s.acked || c.destroyed.isSome then (c, s)
  else
    let s2 := { s with numResends := s.numResends + 1 }
    (c, { s2 with resendTimerSet := c.resendTimeoutVal * s2.numResends })

/-! ## File-transfer client event loop (src/fileserver/utpsession.go)

The relevant parts of `(*Client).loop`: the create branch inserts
`&clientTransfer{started: create.started}` — leaving `createTime` at its
zero value — and the 10-second ticker branch removes a transfer `t` when
`t.createTime.Add(transferStartTimeout).After(now)` holds, i.e. when
`createTime + 10s > now`. -/

/-- `transferStartTimeout` from src/fileserver/utpsession.go lines 126-129. -/
def transferStartTimeoutVal : Nat :=
  10 * second

inductive ClientErr where
  | canceled
  | rejectedByServer
  | handshakeTimeout
  deriving DecidableEq, Repr

structure ClientTransferRec where
  createTime : Nat
  err : Option ClientErr
  deriving DecidableEq, Repr

/-- The transfer record made by the create branch of `loop`
(src/fileserver/utpsession.go lines 264-268): `createTime` is never
assigned and stays at the Go zero value. -/
def clientCreateTransfer : ClientTransferRec :=
  { createTime := 0, err := none }

/-- Embedding of the ticker branch of `loop` (src/fileserver/utpsession.go
lines 310-317): delete exactly the transfers with
`createTime + transferStartTimeout > now` (the deleted ones get
`err = errTransferHandshakeTimeout`, but nothing reads it). -/
def tickScan (transfers : List ((Nat × Nat) × ClientTransferRec)) (now : Nat) :
    List ((Nat × Nat) × ClientTransferRec) :=
  transfers.filter fun e => !decide (e.2.createTime + transferStartTimeoutVal > now)

/-! ## Encode iteration (for the nonce-counter claims) -/

/-- The packets of a sequence of Encode calls. -/
def encodeTrace : Session → List (List Nat × List Nat) → List (List Nat)
  | _, [] => []
  | s, rm :: rest =>
    let r := sessionEncode s rm.1 rm.2
    r.2 :: encodeTrace r.1 rest

/-- The 12-byte nonce of the `n`-th packet of a trace. -/
def traceNonce (s : Session) (inputs : List (List Nat × List Nat)) (n : Nat) : List Nat :=
  (((encodeTrace s inputs).getD n []).drop 8).take 12

/-- Byte values of a list of machine bytes. -/
def asBytes (l : List (Fin 256)) : List Nat :=
  l.map Fin.val

/-- The packet emitted by one Encode call. -/
def encodePacket (s : Session) (rand8 msg : List Nat) : List Nat :=
  (sessionEncode s rand8 msg).2

/-- Session and inputs used in the nonce wrap-around counterexample:
a freshly derived session and `2^32 + 1` Encode calls. -/
def c3session : Session :=
  deriveSession 0 [] (List.replicate 16 0) (List.replicate 16 0) false

def c3inputs : List (List Nat × List Nat) :=
  List.replicate (2 ^ 32 + 1) (List.replicate 8 0, [])

/-- Session (counter 0) and two-call input sequence for the
nonce-monotonicity witness. -/
def c3wSession : Session :=
  ⟨0, 0, [], 0, [], 0⟩

def c3wInputs : List (List Nat × List Nat) :=
  [(List.replicate 8 0, []), (List.replicate 8 1, [])]

/-- The store after establishing a session for `(ip, id)` at `t0` and a
second session for the same key at `t1` (the duplicate-id scenario). -/
def dupStore (ip id t0 t1 : Nat) : StoreState :=
  storePut (storePut emptyStore ip id t0) ip id t1

/-- The invariant shape of the store in the duplicate-id scenario: one map
entry for the surviving session (ref 1), and queue entries for the evicted
session (ref 0, fixed expiry `e0`) and the survivor (last access `la`). -/
def dupInv (ip id e0 la : Nat) : StoreState :=
  ⟨[((ip, id), ⟨1, ip, id⟩)], [(⟨0, ip, id⟩, e0), (⟨1, ip, id⟩, la + sessionTimeout)], 2⟩

/-- Store with two distinct sessions, used for the expiry claim: session
ref 0 under key `(1, 100)` stored at `t = 0`, session ref 1 under key
`(2, 200)` stored at `t = 5 s`. -/
def c4store : StoreState :=
  storePut (storePut emptyStore 1 100 0) 2 200 (5 * second)

end DiscStreams

open DiscStreams

/-! ### Supporting lemmas (shared) -/

theorem beVal_beBytes (w x : Nat) : beVal (beBytes w x) = x % 256 ^ w := by
  induction w generalizing x with
  | zero => simp [beBytes, beVal, Nat.mod_one]
  | succ w ih =>
    simp only [beBytes, beVal, beBytes_length, ih]
    rw [← Nat.mod_mul_right_div_self, Nat.pow_succ]
    have h1 : x % 256 ^ w = x % (256 ^ w * 256) % 256 ^ w :=
      (Nat.mod_mod_of_dvd x ⟨256, rfl⟩).symm
    rw [h1, Nat.div_add_mod']

theorem length_gcmKeystream (k n : List Nat) (m : Nat) : (gcmKeystream k n m).length = m := by
  simp [gcmKeystream]

theorem length_ctrCrypt (k n d : List Nat) : (ctrCrypt k n d).length = d.length := by
  simp [ctrCrypt, length_gcmKeystream]

theorem zipWith_xor_cancel (pt : List Nat) :
    ∀ ks : List Nat, pt.length ≤ ks.length →
      List.zipWith Nat.xor (List.zipWith Nat.xor pt ks) ks = pt := by
  induction pt with
  | nil => intro ks _; simp
  | cons p pt ih =>
    intro ks h
    cases ks with
    | nil => simp at h
    | cons k ks =>
      simp only [List.zipWith_cons_cons]
      rw [show Nat.xor (Nat.xor p k) k = p from Nat.xor_cancel_right k p,
        ih ks (by simpa using h)]

theorem ctrCrypt_ctrCrypt (k n pt : List Nat) : ctrCrypt k n (ctrCrypt k n pt) = pt := by
  unfold ctrCrypt
  rw [show (List.zipWith Nat.xor pt (gcmKeystream k n pt.length)).length = pt.length by
    simp [length_gcmKeystream]]
  exact zipWith_xor_cancel pt _ (by simp [length_gcmKeystream])

theorem gcmSeal_length (key nonce pt ad : List Nat) :
    (gcmSeal key nonce pt ad).length = pt.length + 16 := by
  simp [gcmSeal, length_ctrCrypt, beBytes_length]

theorem gcmOpen_gcmSeal (key nonce pt ad : List Nat) :
    gcmOpen key nonce (gcmSeal key nonce pt ad) ad = some pt := by
  have hct : (ctrCrypt key nonce pt).length = pt.length := length_ctrCrypt key nonce pt
  have hseal : gcmSeal key nonce pt ad =
      ctrCrypt key nonce pt ++ beBytes 16 (gcmTagVal key nonce (ctrCrypt key nonce pt) ad) := rfl
  have hlen : (gcmSeal key nonce pt ad).length = pt.length + 16 := gcmSeal_length key nonce pt ad
  have htake : (gcmSeal key nonce pt ad).take (pt.length + 16 - 16) = ctrCrypt key nonce pt := by
    rw [hseal, Nat.add_sub_cancel, List.take_left' hct]
  have hdrop : (gcmSeal key nonce pt ad).drop (pt.length + 16 - 16) =
      beBytes 16 (gcmTagVal key nonce (ctrCrypt key nonce pt) ad) := by
    rw [hseal, Nat.add_sub_cancel, List.drop_left' hct]
  unfold gcmOpen
  rw [hlen, if_neg (by omega)]
  simp only [htake, hdrop, if_pos rfl, ctrCrypt_ctrCrypt, if_true]

/-- Roundtrip for any pair of sessions whose decode key matches the encode
key: Decode of an Encode packet yields the message, and the packet carries
exactly 36 bytes of overhead. -/
theorem sessionDecode_sessionEncode (sE sD : Session) (rand8 msg : List Nat)
    (hkey : sD.ingressKey = sE.egressKey) (hr : rand8.length = 8) :
    sessionDecode sD (sessionEncode sE rand8 msg).2 = some msg ∧
      (sessionEncode sE rand8 msg).2.length = msg.length + 36 := by
  have hid : (beBytes 8 sE.egressID).length = 8 := beBytes_length 8 _
  have hnonce : (beBytes 4 (sE.nonceCounter % 2 ^ 32) ++ rand8).length = 12 := by
    simp [beBytes_length, hr]
  have hpacket : (sessionEncode sE rand8 msg).2 =
      beBytes 8 sE.egressID ++
        ((beBytes 4 (sE.nonceCounter % 2 ^ 32) ++ rand8) ++
          gcmSeal sE.egressKey (beBytes 4 (sE.nonceCounter % 2 ^ 32) ++ rand8) msg
            (beBytes 8 sE.egressID)) := by
    simp [sessionEncode]
  have hplen : (sessionEncode sE rand8 msg).2.length = msg.length + 36 := by
    rw [hpacket]
    simp [beBytes_length, hr, gcmSeal_length]
    omega
  refine ⟨?_, hplen⟩
  unfold sessionDecode
  rw [hplen, if_neg (by omega), hpacket]
  rw [List.take_left' hid, List.drop_left' hid, List.take_left' hnonce]
  rw [← List.append_assoc]
  rw [List.drop_left'
    (show (beBytes 8 sE.egressID ++ (beBytes 4 (sE.nonceCounter % 2 ^ 32) ++ rand8)).length = 20
      from by simp [beBytes_length, hr])]
  rw [hkey]
  exact gcmOpen_gcmSeal _ _ _ _

/-! ### Theorems for claim C7 -/

/-- Claim C7 counterexample: at `a = 32768`, `b = 0`, the code's `seqLess`
returns `true`, but `(a - b) mod 65536 = 32768` does not lie strictly inside
the open interval `(32768, 65536)`, so the claimed equivalence fails there. -/
theorem seqLess_c7_counterexample :
    ¬ (DiscStreams.seqLess 32768 0 = true ↔
        (32768 < ((32768 : Int) - 0) % 65536 ∧ ((32768 : Int) - 0) % 65536 < 65536)) := by
  decide

/-- Claim C7 (amended): for all 16-bit `a`, `b`, `seqLess a b` returns `true`
iff `(a - b) mod 65536` lies in the half-open interval `[32768, 65536)`,
i.e. the interval is closed at 32768, not open as the claim states. -/
theorem seqLess_iff_wraparound (a b : Nat) (ha : a < 65536) (hb : b < 65536) :
    DiscStreams.seqLess a b = true ↔
      (32768 ≤ ((a : Int) - (b : Int)) % 65536 ∧ ((a : Int) - (b : Int)) % 65536 < 65536) := by
  simp only [DiscStreams.seqLess, DiscStreams.u16sub]
  split <;>
    simp only [Bool.or_eq_true, Bool.and_eq_true, decide_eq_true_eq] <;>
    omega

/-- Witness for `seqLess_iff_wraparound` at `a = 10000`, `b = 40000`. -/
theorem seqLess_iff_wraparound_witness :
    DiscStreams.seqLess 10000 40000 = true ↔
      (32768 ≤ ((10000 : Int) - (40000 : Int)) % 65536 ∧
        ((10000 : Int) - (40000 : Int)) % 65536 < 65536) :=
  seqLess_iff_wraparound 10000 40000 (by decide) (by decide)

/-! ### Theorems for claim C1 -/

/-- Claim C1: for every protocol name and every pair of 16-byte secrets, if
one session is derived in the initiator role and another in the recipient
role from the same (initiator-secret, recipient-secret, protocol) inputs,
then for every message, the recipient session's Decode of the packet
produced by the initiator session's Encode succeeds and returns exactly the
message, and the packet is exactly 36 bytes longer than the message. -/
theorem session_encode_decode_roundtrip (ip1 ip2 : Nat) (protocol : List (Fin 256))
    (isec rsec : Mathlib.Vector (Fin 256) 16) (rand8 : Mathlib.Vector (Fin 256) 8)
    (msg : List (Fin 256)) :
    sessionDecode
        (deriveSession ip2 (asBytes protocol) (asBytes isec.toList) (asBytes rsec.toList) true)
        (encodePacket
          (deriveSession ip1 (asBytes protocol) (asBytes isec.toList) (asBytes rsec.toList) false)
          (asBytes rand8.toList) (asBytes msg))
      = some (asBytes msg) ∧
    (encodePacket
        (deriveSession ip1 (asBytes protocol) (asBytes isec.toList) (asBytes rsec.toList) false)
        (asBytes rand8.toList) (asBytes msg)).length
      = (asBytes msg).length + 36 := by
  apply sessionDecode_sessionEncode
  · simp [deriveSession]
  · simp [asBytes, rand8.toList_length]

/-! ### Theorems for claim C2 -/

/-- The HKDF info string the claim specifies:
ASCII "discv5 sub-protocol session" followed by the protocol name. -/
def specC2Info (protocol : List Nat) : List Nat :=
  "discv5 sub-protocol session".ascii ++ protocol

/-- Claim C2 counterexample: at the concrete protocol name `""`, the info
string actually used by `derive` is ASCII "discv5 subprotocol session"
(no hyphen, no space), not the "discv5 sub-protocol session" the claim
states. -/
theorem derive_info_c2_counterexample : ¬ (deriveInfo [] = specC2Info []) := by
  decide

/-- Claim C2 (amended): key derivation computes 48 bytes as HKDF-SHA256
with zero-filled salt, ikm = initiator-secret || recipient-secret, and info
equal to the ASCII string "discv5 subprotocol session" (not
"discv5 sub-protocol session") followed by the protocol name, split as
key1 = kdata[0..16], key2 = kdata[16..32], id1 = kdata[32..40],
id2 = kdata[40..48], with the initiator taking ingress = (key1, id1),
egress = (key2, id2) and the recipient the mirror assignment. -/
theorem derive_kdata_split (ip1 ip2 : Nat) (protocol : List (Fin 256))
    (isec rsec : Mathlib.Vector (Fin 256) 16) :
    deriveSession ip1 (asBytes protocol) (asBytes isec.toList) (asBytes rsec.toList) false =
      { ip := ip1
        ingressKey :=
          (hkdfSha256of48 (asBytes isec.toList ++ asBytes rsec.toList)
            ("discv5 subprotocol session".ascii ++ asBytes protocol)).take 16
        egressKey :=
          ((hkdfSha256of48 (asBytes isec.toList ++ asBytes rsec.toList)
            ("discv5 subprotocol session".ascii ++ asBytes protocol)).drop 16).take 16
        ingressID :=
          beVal (((hkdfSha256of48 (asBytes isec.toList ++ asBytes rsec.toList)
            ("discv5 subprotocol session".ascii ++ asBytes protocol)).drop 32).take 8)
        egressID :=
          beVal (((hkdfSha256of48 (asBytes isec.toList ++ asBytes rsec.toList)
            ("discv5 subprotocol session".ascii ++ asBytes protocol)).drop 40).take 8)
        nonceCounter := 0 } ∧
    (deriveSession ip2 (asBytes protocol) (asBytes isec.toList) (asBytes rsec.toList) true).ingressKey =
      (deriveSession ip1 (asBytes protocol) (asBytes isec.toList) (asBytes rsec.toList) false).egressKey ∧
    (deriveSession ip2 (asBytes protocol) (asBytes isec.toList) (asBytes rsec.toList) true).egressKey =
      (deriveSession ip1 (asBytes protocol) (asBytes isec.toList) (asBytes rsec.toList) false).ingressKey ∧
    (deriveSession ip2 (asBytes protocol) (asBytes isec.toList) (asBytes rsec.toList) true).ingressID =
      (deriveSession ip1 (asBytes protocol) (asBytes isec.toList) (asBytes rsec.toList) false).egressID ∧
    (deriveSession ip2 (asBytes protocol) (asBytes isec.toList) (asBytes rsec.toList) true).egressID =
      (deriveSession ip1 (asBytes protocol) (asBytes isec.toList) (asBytes rsec.toList) false).ingressID := by
  refine ⟨?_, ?_, ?_, ?_, ?_⟩ <;> simp [deriveSession, deriveKdata, deriveInfo]

/-! ### Theorems for claim C3 -/

/-- The 12-byte nonce of one Encode packet: 4 counter bytes then the 8
random bytes. -/
theorem encodePacket_nonce (s : Session) (rand8 msg : List Nat) (hr : rand8.length = 8) :
    ((sessionEncode s rand8 msg).2.drop 8).take 12 =
      beBytes 4 (s.nonceCounter % 2 ^ 32) ++ rand8 := by
  have hid : (beBytes 8 s.egressID).length = 8 := beBytes_length 8 _
  have hnonce : (beBytes 4 (s.nonceCounter % 2 ^ 32) ++ rand8).length = 12 := by
    simp [beBytes_length, hr]
  have hpacket : (sessionEncode s rand8 msg).2 =
      beBytes 8 s.egressID ++
        ((beBytes 4 (s.nonceCounter % 2 ^ 32) ++ rand8) ++
          gcmSeal s.egressKey (beBytes 4 (s.nonceCounter % 2 ^ 32) ++ rand8) msg
            (beBytes 8 s.egressID)) := by
    simp [sessionEncode]
  rw [hpacket, List.drop_left' hid, List.take_left' hnonce]

/-- The nonce of the `n`-th packet of an Encode trace: the 4-byte big-endian
counter value `(initial + n) mod 2^32` followed by that call's 8 random
bytes. -/
theorem traceNonce_formula (inputs : List (List Nat × List Nat)) :
    ∀ (s : Session) (n : Nat), n < inputs.length →
      (∀ rm ∈ inputs, (rm : List Nat × List Nat).1.length = 8) →
      traceNonce s inputs n =
        beBytes 4 ((s.nonceCounter + n) % 2 ^ 32) ++ (inputs.getD n ([], [])).1 := by
  induction inputs with
  | nil => intro s n hn _; simp at hn
  | cons rm rest ih =>
    intro s n hn hr
    cases n with
    | zero =>
      have hr0 : rm.1.length = 8 := hr rm (List.mem_cons_self rm rest)
      show (((encodeTrace s (rm :: rest)).getD 0 []).drop 8).take 12 = _
      rw [show (encodeTrace s (rm :: rest)).getD 0 [] = (sessionEncode s rm.1 rm.2).2 from rfl]
      rw [encodePacket_nonce s rm.1 rm.2 hr0]
      simp
    | succ n =>
      have hstep : traceNonce s (rm :: rest) (n + 1) =
          traceNonce (sessionEncode s rm.1 rm.2).1 rest n := rfl
      rw [hstep, ih (sessionEncode s rm.1 rm.2).1 n (by simpa using hn)
        (fun x hx => hr x (List.mem_cons_of_mem rm hx))]
      have hcnt : (sessionEncode s rm.1 rm.2).1.nonceCounter = (s.nonceCounter + 1) % 2 ^ 32 := rfl
      rw [hcnt]
      have h32 : (2 : Nat) ^ 32 = 4294967296 := by norm_num
      have harith : ((s.nonceCounter + 1) % 2 ^ 32 + n) % 2 ^ 32 =
          (s.nonceCounter + (n + 1)) % 2 ^ 32 := by
        rw [h32]; omega
      rw [harith]
      rfl

/-- Claim C3 counterexample: on a freshly derived session, the 4-byte nonce
head of Encode call number `2^32` equals that of call number 0 — the
`uint32` counter wraps — so the heads are not strictly monotonically
increasing over every sequence of Encode calls, and the counter does
repeat. -/
theorem nonce_monotonic_counterexample :
    (0 : Nat) < 2 ^ 32 ∧
    traceNonce c3session c3inputs (2 ^ 32) = traceNonce c3session c3inputs 0 := by
  have hmem : ∀ rm ∈ c3inputs, (rm : List Nat × List Nat).1.length = 8 := by
    intro rm hm
    have heq : rm = (List.replicate 8 0, ([] : List Nat)) := List.eq_of_mem_replicate hm
    rw [heq]
    rfl
  have hlen : c3inputs.length = 2 ^ 32 + 1 := List.length_replicate _ _
  have h1 := traceNonce_formula c3inputs c3session (2 ^ 32) (by rw [hlen]; omega) hmem
  have h2 := traceNonce_formula c3inputs c3session 0 (by rw [hlen]; omega) hmem
  refine ⟨by norm_num, ?_⟩
  rw [h1, h2]
  have hc : c3session.nonceCounter = 0 := rfl
  rw [hc]
  have hm1 : (0 + 2 ^ 32) % 2 ^ 32 = (0 + 0) % 2 ^ 32 := by simp
  rw [hm1]
  have hgetAt : ∀ i, i < 2 ^ 32 + 1 →
      c3inputs.getD i ([], []) = (List.replicate 8 0, ([] : List Nat)) := by
    intro i hi
    have hi2 : i < c3inputs.length := by rw [hlen]; exact hi
    rw [List.getD_eq_getElem?_getD, List.getElem?_eq_getElem hi2]
    simp only [Option.getD_some]
    apply List.getElem_replicate
  rw [hgetAt (2 ^ 32) (by omega), hgetAt 0 (by omega)]

/-- Claim C3 (amended): for every session with nonce counter 0 and every
sequence of at most `2^32` successful Encode calls, the big-endian value of
the 4-byte nonce head strictly increases from call to call, and no complete
12-byte nonce value repeats; across longer sequences the 32-bit counter
wraps and the guarantee fails. -/
theorem nonce_heads_strictly_monotonic (s : Session) (inputs : List (List Nat × List Nat))
    (i j : Nat) (h0 : s.nonceCounter = 0) (hij : i < j) (hj : j < inputs.length)
    (hlen : inputs.length ≤ 2 ^ 32)
    (hr : ∀ rm ∈ inputs, (rm : List Nat × List Nat).1.length = 8) :
    beVal ((traceNonce s inputs i).take 4) < beVal ((traceNonce s inputs j).take 4) ∧
    traceNonce s inputs i ≠ traceNonce s inputs j := by
  have hi' : i < inputs.length := Nat.lt_trans hij hj
  have hi32 : i < 2 ^ 32 := Nat.lt_of_lt_of_le hi' hlen
  have hj32 : j < 2 ^ 32 := Nat.lt_of_lt_of_le hj hlen
  have hfi := traceNonce_formula inputs s i hi' hr
  have hfj := traceNonce_formula inputs s j hj hr
  have hmi : (s.nonceCounter + i) % 2 ^ 32 = i := by
    rw [h0, Nat.zero_add]; exact Nat.mod_eq_of_lt hi32
  have hmj : (s.nonceCounter + j) % 2 ^ 32 = j := by
    rw [h0, Nat.zero_add]; exact Nat.mod_eq_of_lt hj32
  have htakei : (traceNonce s inputs i).take 4 = beBytes 4 i := by
    rw [hfi, hmi]; exact List.take_left' (beBytes_length 4 i)
  have htakej : (traceNonce s inputs j).take 4 = beBytes 4 j := by
    rw [hfj, hmj]; exact List.take_left' (beBytes_length 4 j)
  have h256 : (256 : Nat) ^ 4 = 2 ^ 32 := by norm_num
  constructor
  · rw [htakei, htakej, beVal_beBytes, beVal_beBytes, h256,
      Nat.mod_eq_of_lt hi32, Nat.mod_eq_of_lt hj32]
    exact hij
  · intro heq
    have ht : (traceNonce s inputs i).take 4 = (traceNonce s inputs j).take 4 := by rw [heq]
    rw [htakei, htakej] at ht
    have hv := congrArg beVal ht
    rw [beVal_beBytes, beVal_beBytes, h256, Nat.mod_eq_of_lt hi32, Nat.mod_eq_of_lt hj32] at hv
    exact absurd hv (Nat.ne_of_lt hij)

/-- Witness for `nonce_heads_strictly_monotonic` at a concrete session and
a two-call input sequence. -/
theorem nonce_heads_strictly_monotonic_witness :
    beVal ((traceNonce c3wSession c3wInputs 0).take 4) <
      beVal ((traceNonce c3wSession c3wInputs 1).take 4) ∧
    traceNonce c3wSession c3wInputs 0 ≠ traceNonce c3wSession c3wInputs 1 :=
  nonce_heads_strictly_monotonic c3wSession c3wInputs 0 1 rfl (by decide) (by decide)
    (by decide) (by decide)

/-! ### Theorems for claim C4 -/

/-- Claim C4 (code_bug evidence): with two sessions in the store — ref 0
for key `(1, 100)` last accessed (created) at `t = 0`, ref 1 for key
`(2, 200)` created at `t = 5 s` — a `get` for `(1, 100)` at `t = 12 s`,
i.e. 12 s ≥ `sessionTimeout` past that session's last access, still
returns the session instead of none: go-ethereum's `prque` is a
max-priority queue, so `expire` sees the latest expiry (15 s) at the top,
stops immediately, and never evicts the expired entry. -/
theorem expired_session_still_retrievable :
    12 * second ≥ 0 + sessionTimeout ∧
    (storeGet c4store 1 100 (12 * second)).2 = some ⟨0, 1, 100⟩ := by
  decide

/-! ### Theorems for claim C5 -/

/-- In the duplicate-id invariant state, a `get` before the survivor's
expiry returns the survivor (ref 1) and refreshes its queue entry; the
evicted session's stale queue entry stays put. -/
theorem storeGet_dupInv (ip id e0 la t : Nat) (h1 : e0 ≤ la + sessionTimeout)
    (h2 : t < la + sessionTimeout) :
    storeGet (dupInv ip id e0 la) ip id t = (dupInv ip id e0 t, some ⟨1, ip, id⟩) := by
  have hexp : storeExpire (dupInv ip id e0 la) t = dupInv ip id e0 la := by
    by_cases hc : la + sessionTimeout > e0
    · simp [dupInv, storeExpire, expireGo, peekMax, hc, h2]
    · have he : e0 = la + sessionTimeout := by omega
      simp [dupInv, storeExpire, expireGo, peekMax, hc, he, h2]
  unfold storeGet
  rw [hexp]
  simp [dupInv, lookupKey, removeEntry, List.find?]

/-- Sequential `get`s of the surviving session, each within the timeout of
the previous access, all succeed and return the survivor. -/
theorem runGets_dupInv (gets : List Nat) :
    ∀ (ip id e0 la : Nat), e0 ≤ la + sessionTimeout →
      List.Chain' (fun a b => a ≤ b ∧ b < a + sessionTimeout) (la :: gets) →
      (runGets (dupInv ip id e0 la) ip id gets).2 =
        gets.map (fun _ => some ⟨1, ip, id⟩) := by
  induction gets with
  | nil => intro ip id e0 la _ _; rfl
  | cons t ts ih =>
    intro ip id e0 la h1 hch
    have hrel : la ≤ t ∧ t < la + sessionTimeout := (List.chain'_cons.mp hch).1
    have hrest : List.Chain' (fun a b => a ≤ b ∧ b < a + sessionTimeout) (t :: ts) :=
      (List.chain'_cons.mp hch).2
    show ((storeGet (dupInv ip id e0 la) ip id t).2 ::
        (runGets (storeGet (dupInv ip id e0 la) ip id t).1 ip id ts).2) = _
    rw [storeGet_dupInv ip id e0 la t h1 hrel.2]
    rw [ih ip id e0 t (by omega) hrest]
    rfl

/-- Claim C5: when a session is established whose `(peer-ip, ingress-id)`
key equals that of a stored session, the new session wins: the map holds
only the new session (the previous one is evicted), and every subsequent
`get` within `sessionTimeout` of the previous access returns the new
session for its full TTL from each access. -/
theorem duplicate_session_last_writer_wins (ip id t0 t1 : Nat) (gets : List Nat)
    (h01 : t0 ≤ t1)
    (hch : List.Chain' (fun a b => a ≤ b ∧ b < a + sessionTimeout) (t1 :: gets)) :
    (dupStore ip id t0 t1).sessions = [((ip, id), ⟨1, ip, id⟩)] ∧
    (runGets (dupStore ip id t0 t1) ip id gets).2 =
      gets.map (fun _ => some ⟨1, ip, id⟩) := by
  have hdup : dupStore ip id t0 t1 = dupInv ip id (t0 + sessionTimeout) t1 := by
    simp [dupStore, dupInv, storePut, emptyStore, insertKey]
  refine ⟨by rw [hdup]; rfl, ?_⟩
  rw [hdup]
  exact runGets_dupInv gets ip id (t0 + sessionTimeout) t1 (by omega) hch

/-- Witness for `duplicate_session_last_writer_wins`: key `(1, 100)`, old
session at `t = 0`, new session at `t = 5 s`, gets at 7 s and 14 s. -/
theorem duplicate_session_last_writer_wins_witness :
    (dupStore 1 100 0 (5 * second)).sessions = [((1, 100), ⟨1, 1, 100⟩)] ∧
    (runGets (dupStore 1 100 0 (5 * second)) 1 100 [7 * second, 14 * second]).2 =
      [7 * second, 14 * second].map (fun _ => some ⟨1, 1, 100⟩) :=
  duplicate_session_last_writer_wins 1 100 0 (5 * second) [7 * second, 14 * second]
    (by decide)
    (List.chain'_cons.mpr ⟨⟨by decide, by decide⟩,
      List.chain'_cons.mpr ⟨⟨by decide, by decide⟩, List.chain'_singleton _⟩⟩)

/-! ### Theorems for claim C6 -/

/-- Claim C6 counterexample: in the `Listen` wiring, for a datagram that no
component claims, the offer sequence is session store first, then
discovery — discovery is NOT offered the packet before the session store.
Discovery is not a handler at all: it reads via the default outlet, which
`readLoop` serves only after every handler declined. -/
theorem listen_offer_order_counterexample :
    offerSeq hostListenHandlers (fun _ => false) =
      [NetComponent.sessionStore, NetComponent.discovery] ∧
    offeredBefore NetComponent.discovery NetComponent.sessionStore
      (offerSeq hostListenHandlers (fun _ => false)) = false := by
  decide

/-- Claim C6 (amended): `Listen` registers the session store as a handler
of the shared socket and hands the default outlet to discovery, so for
every inbound datagram the session store is offered the packet first and
the discovery layer receives it only when the session store does not claim
it. -/
theorem listen_offer_order (accepts : NetComponent → Bool) :
    offerSeq hostListenHandlers accepts =
      if accepts NetComponent.sessionStore then [NetComponent.sessionStore]
      else [NetComponent.sessionStore, NetComponent.discovery] := by
  cases h : accepts NetComponent.sessionStore <;>
    simp [offerSeq, hostListenHandlers, hlAppend, hlSetDefault, emptyHandlerList, offerWalk, h]

/-! ### Theorems for claim C8 -/

/-- Claim C8: if a sent segment is still unacknowledged when its resend
timer fires more than the configured `write-timeout` after its first send,
the connection is destroyed with an error satisfying both the is-timeout
and the is-ack-timeout predicates (and whose `Timeout()` method returns
true). -/
theorem ack_timeout_destroys (c : UtpConnState) (s : SendState) (now : Nat)
    (h : now - s.started > c.config.writeTimeout) :
    (timeoutResend c s now).1.destroyed = some (.errTimeout true) ∧
    IsTimeout (.errTimeout true) = true ∧
    IsAckTimeout (.errTimeout true) = true ∧
    timeoutMethod (.errTimeout true) = true := by
  refine ⟨?_, rfl, rfl, rfl⟩
  unfold timeoutResend
  rw [if_pos (show now - s.started ≥ c.config.writeTimeout by omega)]
  rfl

/-- Witness for `ack_timeout_destroys`: a segment first sent at `t = 0` on
a connection with `defaultSocketConfig` (write-timeout 15 s), timer firing
at `t = 16 s`. -/
theorem ack_timeout_destroys_witness :
    (timeoutResend ⟨none, defaultSocketConfig, 0⟩ ⟨0, false, 0, 0⟩
      (16 * second)).1.destroyed = some (.errTimeout true) ∧
    IsTimeout (.errTimeout true) = true ∧
    IsAckTimeout (.errTimeout true) = true ∧
    timeoutMethod (.errTimeout true) = true :=
  ack_timeout_destroys ⟨none, defaultSocketConfig, 0⟩ ⟨0, false, 0, 0⟩ (16 * second)
    (by decide)

/-! ### Theorems for claim C9 -/

/-- Claim C9 (code_bug evidence): the ticker scan of the client loop is
doubly wrong. First conjunct: a transfer made by the create branch
(`createTime` left at its zero value) is never removed, no matter how far
the clock advances past the 10-second transfer-start timeout — the scan
condition `createTime + timeout > now` is false for it. Second conjunct:
had `createTime` been set to the creation time as the claim assumes, a
transfer only 5 seconds old would be removed at once — the comparison is
inverted, timing out exactly the transfers younger than 10 seconds. -/
theorem transfer_timeout_scan_inverted :
    tickScan [((1, 42), clientCreateTransfer)] (100 * second) =
      [((1, 42), clientCreateTransfer)] ∧
    tickScan [((1, 42), ⟨95 * second, none⟩)] (100 * second) = [] := by
  decide

/-! ### Theorems for claim C10 -/

/-- Claim C10: on the shared socket's default outlet, the first
`SetReadDeadline` call arms the timer with duration `now - t` rather than
`t - now`, so for a deadline strictly in the future the next read (with no
queued packet) returns a timeout error immediately instead of waiting
until `t`; a subsequent `SetReadDeadline` arms `t - now`, firing at `t`. -/
theorem first_read_deadline_inverted (now t : Int) (h : now < t) :
    (setReadDeadline ⟨none⟩ now t).readDeadlineFireAt = some (now + (now - t)) ∧
    readFromUDPEmpty (setReadDeadline ⟨none⟩ now t) now = .timedOutErr ∧
    (setReadDeadline (setReadDeadline ⟨none⟩ now t) now t).readDeadlineFireAt =
      some (now + (t - now)) := by
  refine ⟨rfl, ?_, rfl⟩
  show (if now + (now - t) ≤ now then ReadOutcome.timedOutErr else ReadOutcome.wouldBlock) =
    ReadOutcome.timedOutErr
  rw [if_pos (by omega)]

/-- Witness for `first_read_deadline_inverted` at `now = 0`, `t = 5`. -/
theorem first_read_deadline_inverted_witness :
    (setReadDeadline ⟨none⟩ 0 5).readDeadlineFireAt = some (0 + (0 - 5)) ∧
    readFromUDPEmpty (setReadDeadline ⟨none⟩ 0 5) 0 = .timedOutErr ∧
    (setReadDeadline (setReadDeadline ⟨none⟩ 0 5) 0 5).readDeadlineFireAt =
      some (0 + (5 - 0)) :=
  first_read_deadline_inverted 0 5 (by decide)
